import Mathlib

/-!
Verification development for the solid-cli unified security analysis tool.

The definitions below are shallow embeddings of the JavaScript source:

* `src/src/Orchestrator.js` (the unified `Orchestrator` class): result
  aggregation (`calculateOverallRisk`, `generateSummary`,
  `deriveRiskFromFindings`), the blockchain indicator extractor, the
  adaptive phase-2 decision, and the chunked scheduler.
* `src/llm/LLMAnalyzer.js`: the sensitive-data firewall
  (`performSecurityCheck`, `isLikelySeedPhrase`, `isLikelyApiKey`) and the
  `analyze` control flow that gates the external LLM call.
* `src/report/utils/formatter.js` (`ReportSanitizer`): `sanitizeText` and
  its pattern bank.
* `src/utils/signature.js`: `getSignatureAssessment`.

JavaScript dynamic values are modelled with `Option`: `none` stands for an
absent field or a falsy (empty-string) value wherever the source only
tests truthiness.  Result maps are association lists in insertion order,
matching `Object.entries`.
-/

/-- A single reported observation (`Finding` in the data model of
`src/src/Orchestrator.js`).  Only the fields inspected by the functions
under verification are modelled. -/
structure Finding where
  risk : Option String := none
  command : Option String := none
  program : Option String := none
  description : Option String := none
  remoteAddress : Option String := none
deriving Repr, DecidableEq

/-- A per-detector result (`DetectorResult`): `error` is `some` exactly when
the source's truthiness test `if (result.error)` passes. -/
structure AgentResult where
  agent : Option String := none
  error : Option String := none
  findings : Option (List (Option Finding)) := none
  overallRisk : Option String := none
deriving Repr, DecidableEq

/-- The keyed result map built by `runAnalysis`; entries are in insertion
order as `Object.entries` would produce them.  An entry value of `none`
models a null/undefined result object. -/
abbrev Results : Type := List (String × Option AgentResult)

/-- Property lookup `results[key]` (first entry wins; the source never
builds duplicate keys). -/
def lookupResult (rs : Results) (k : String) : Option AgentResult :=
  match rs.find? (fun p => p.1 == k) with
  | some p => p.2
  | none => none

/-- The overall risks collected by `calculateOverallRisk`
(Orchestrator.js lines 542-544): values of entries that are non-null and
have a truthy `overallRisk`. -/
def risksOf (rs : Results) : List String :=
  rs.filterMap (fun p => p.2.bind (fun r => r.overallRisk))

/-- `Orchestrator.calculateOverallRisk` (Orchestrator.js lines 537-553).
`none` input models a null / non-object `results` argument. -/
def calculateOverallRisk (results : Option Results) : String :=
  match results with
  | none => "unknown"
  | some rs =>
    let risks := risksOf rs
    if risks.isEmpty then "unknown"
    else if risks.contains "high" then "high"
    else if risks.contains "medium" then "medium"
    else "low"

/-- `Orchestrator.deriveRiskFromFindings` (Orchestrator.js lines 627-632).
`findings = none` models a non-array argument.  The `reportedRisk`
parameter is present in the source signature (default `'unknown'`) and,
as in the source body, is never read. -/
def deriveRiskFromFindings (findings : Option (List (Option Finding)))
    (reportedRisk : String) : String :=
  match findings with
  | none => "low"
  | some fs =>
    if fs.isEmpty then "low"
    else if fs.any (fun f? => match f? with
        | some f => f.risk == some "high"
        | none => false) then "high"
    else if fs.any (fun f? => match f? with
        | some f => f.risk == some "medium"
        | none => false) then "medium"
    else "low"

/-- One `agentSummaries` entry of a summary. -/
inductive AgentSummary where
  | errorEntry (msg : String)
  | okEntry (findings : Nat) (risk : String)
deriving Repr, DecidableEq

/-- The summary record built by `generateSummary`. -/
structure Summary where
  totalFindings : Nat
  highRiskFindings : Nat
  mediumRiskFindings : Nat
  lowRiskFindings : Nat
  agentSummaries : List (String × AgentSummary)
  error : Option String
deriving Repr, DecidableEq

/-- The findings of a non-null, non-errored result (as coerced by
`generateSummary`: a non-array `findings` becomes `[]`); a null or
errored result contributes no findings to the totals. -/
def errorFreeFindings (p : String × Option AgentResult) : List (Option Finding) :=
  match p.2 with
  | some r => if r.error.isSome then [] else r.findings.getD []
  | none => []

/-- The number of non-null findings with `risk === 'high'`. -/
def tallyHigh (fs : List (Option Finding)) : Nat :=
  (fs.filter (fun f? => match f? with
    | some f => f.risk == some "high"
    | none => false)).length

/-- The number of non-null findings with `risk === 'medium'`. -/
def tallyMedium (fs : List (Option Finding)) : Nat :=
  (fs.filter (fun f? => match f? with
    | some f => f.risk == some "medium"
    | none => false)).length

/-- The number of non-null findings counted as low (`else if (finding)`). -/
def tallyLow (fs : List (Option Finding)) : Nat :=
  (fs.filter (fun f? => match f? with
    | some f => f.risk != some "high" && f.risk != some "medium"
    | none => false)).length

/-- One iteration of the `for (const [key, result] of Object.entries(results))`
loop of `Orchestrator.generateSummary` (Orchestrator.js lines 580-615). -/
def summaryStep (acc : Summary) (p : String × Option AgentResult) : Summary :=
  match p.2 with
  | none =>
    { acc with agentSummaries :=
        acc.agentSummaries ++ [(p.1, .errorEntry "Result is null or undefined")] }
  | some r =>
    match r.error with
    | some e =>
      { acc with agentSummaries := acc.agentSummaries ++ [(p.1, .errorEntry e)] }
    | none =>
      let findings := r.findings.getD []
      let findingCount := findings.length
      { totalFindings := acc.totalFindings + findingCount
        highRiskFindings := acc.highRiskFindings + tallyHigh findings
        mediumRiskFindings := acc.mediumRiskFindings + tallyMedium findings
        lowRiskFindings := acc.lowRiskFindings + tallyLow findings
        agentSummaries := acc.agentSummaries ++
          [(p.1, .okEntry findingCount
              (deriveRiskFromFindings (some findings) (r.overallRisk.getD "unknown")))]
        error := acc.error }

/-- The zeroed summary used both as the loop accumulator and (with the
error field set) for a non-object input. -/
def emptySummary : Summary :=
  { totalFindings := 0, highRiskFindings := 0, mediumRiskFindings := 0
    lowRiskFindings := 0, agentSummaries := [], error := none }

/-- `Orchestrator.generateSummary` (Orchestrator.js lines 558-622).
`none` models a null / non-object `results` argument; the source's
`try/catch` body cannot raise, so the catch branch is not reachable. -/
def generateSummary (results : Option Results) : Summary :=
  match results with
  | none => { emptySummary with error := some "Invalid results data" }
  | some rs => rs.foldl summaryStep emptySummary

/-- Keyword dictionary of `extractBlockchainIndicators` (process findings). -/
def blockchainKeywords : List String :=
  ["bitcoin", "ethereum", "crypto", "blockchain", "wallet", "mining",
   "metamask", "phantom", "coinbase", "binance", "uniswap", "defi"]

/-- Domain dictionary of `extractBlockchainIndicators` (network findings). -/
def blockchainDomains : List String :=
  ["etherscan", "uniswap", "opensea", "pancakeswap", "curve",
   "compound", "aave", "sushiswap", "1inch", "metamask"]

/-- ASCII lowercase conversion of a character list (models
`String.prototype.toLowerCase` on the ASCII data handled here). -/
def toLowerChars (l : List Char) : List Char := l.map Char.toLower

/-- Whether `pre` is a prefix of `l` (decidable, executable). -/
def listIsPrefix (pre l : List Char) : Bool :=
  match pre, l with
  | [], _ => true
  | _ :: _, [] => false
  | p :: ps, c :: cs => p == c && listIsPrefix ps cs

/-- Whether `needle` occurs contiguously inside `hay`. -/
def listIsIn (needle hay : List Char) : Bool :=
  match hay with
  | [] => listIsPrefix needle []
  | _ :: rest => listIsPrefix needle hay || listIsIn needle rest

/-- JS `haystack.includes(needle)` on strings. -/
def strIncludes (hay needle : String) : Bool :=
  listIsIn needle.toList hay.toList

/-- JS `\s` (modelled on the ASCII whitespace the tool handles). -/
def isWsChar (c : Char) : Bool := c.isWhitespace

/-- JS `String.prototype.trim` on a character list. -/
def trimChars (l : List Char) : List Char :=
  ((l.dropWhile isWsChar).reverse.dropWhile isWsChar).reverse

/-- Split at every character satisfying `p`, keeping empty segments
(the splitting kernel shared by the `split(...)` models below). -/
def splitChars (p : Char → Bool) (l : List Char) : List (List Char) :=
  l.foldr (fun c acc =>
    if p c then [] :: acc
    else match acc with
      | [] => [[c]]
      | t :: ts => (c :: t) :: ts) [[]]

/-- An extracted blockchain `Indicator` (only the fields the trigger
decision depends on are kept; `source` is the finding it came from). -/
structure Indicator where
  type : String
  matched : List String
deriving Repr, DecidableEq

/-- `Orchestrator.extractBlockchainIndicators` (Orchestrator.js lines
248-298).  A `none` finding contributes nothing: its fields are absent,
so no keyword can match. -/
def extractBlockchainIndicators (rs : Results) : List Indicator :=
  let procInd :=
    match lookupResult rs "process" with
    | some r =>
      match r.findings with
      | some fs => fs.filterMap (fun f? =>
          match f? with
          | some f =>
            let searchText := String.mk (toLowerChars
              ((f.command.getD "") ++ " " ++ (f.program.getD "") ++ " " ++
                (f.description.getD "")).toList)
            let matchedKeywords := blockchainKeywords.filter
              (fun kw => strIncludes searchText kw)
            if matchedKeywords.isEmpty then none
            else some ⟨"process", matchedKeywords⟩
          | none => none)
      | none => []
    | none => []
  let netInd :=
    match lookupResult rs "network" with
    | some r =>
      match r.findings with
      | some fs => fs.filterMap (fun f? =>
          match f? with
          | some f =>
            match f.remoteAddress with
            | some ra =>
              let domain := String.mk (toLowerChars ra.toList)
              let matchedDomains := blockchainDomains.filter
                (fun d => strIncludes domain d)
              if matchedDomains.isEmpty then none
              else some ⟨"network", matchedDomains⟩
            | none => none
          | none => none)
      | none => []
    | none => []
  procInd ++ netInd

/-- `Orchestrator.hasBlockchainIndicators` (Orchestrator.js lines 241-243). -/
def hasBlockchainIndicators (rs : Results) : Bool :=
  (extractBlockchainIndicators rs).length > 0

/-- `Orchestrator.needsExtendedForensics` (Orchestrator.js lines 303-311). -/
def needsExtendedForensics (rs : Results) : Bool :=
  let summary := generateSummary (some rs)
  summary.highRiskFindings > 0 || summary.mediumRiskFindings ≥ 5

instance {ε α : Type} [DecidableEq ε] [DecidableEq α] :
    DecidableEq (Except ε α) := fun x y =>
  match x, y with
  | .ok a, .ok b =>
    if h : a = b then isTrue (by rw [h]) else isFalse (by simp [h])
  | .error a, .error b =>
    if h : a = b then isTrue (by rw [h]) else isFalse (by simp [h])
  | .ok _, .error _ => isFalse (by simp)
  | .error _, .ok _ => isFalse (by simp)

/-- A detector to execute: key, display name, and the outcome of its
`analyze()` call (`Except.error` models a thrown exception). -/
abbrev AgentSpec : Type := String × String × Except String AgentResult

/-- The `{agent, error, overallRisk:'unknown'}` record stored for a
thrown `analyze()` (Orchestrator.js lines 359-363). -/
def errorResultOf (nme e : String) : AgentResult :=
  { agent := some nme, error := some e, findings := none,
    overallRisk := some "unknown" }

/-- The per-agent try/catch of `runAnalysis` (Orchestrator.js lines
344-369 and 382-405): a successful `analyze()` stores its result, a
thrown error stores `{agent, error, overallRisk:'unknown'}`. -/
def recordAgent (a : AgentSpec) : String × Option AgentResult :=
  match a.2.2 with
  | .ok r => (a.1, some r)
  | .error e => (a.1, some (errorResultOf a.2.1 e))

/-- Executing a list of detectors and collecting `results[key] = ...`
entries in order. -/
def runAgents (agents : List AgentSpec) : Results :=
  agents.map recordAgent

/-- The outcome of the adaptive phase modelled after `runAnalysis`
(Orchestrator.js lines 416-501): `results` after phase 2,
the `extendedPhases` markers, and the two `adaptiveAnalysis` flags,
which the source computes on the mutated (post-phase-2) map. -/
structure AdaptiveOutcome where
  results : Results
  extendedPhases : List String
  blockchainAnalysisEnabled : Bool
  extendedForensicsEnabled : Bool

/-- Phase 2 of `Orchestrator.runAnalysis` (Orchestrator.js lines 416-501):
the conditional (blockchain/defi) detectors run exactly when
`hasBlockchainIndicators` holds on the phase-1 results;
`needsExtendedForensics` only appends the `'Extended Forensics Analysis'`
marker (the source runs no detector there). -/
def runAdaptivePhase (results : Results)
    (conditionalAgents : List AgentSpec) : AdaptiveOutcome :=
  let ranConditional := hasBlockchainIndicators results
  let results2 : Results :=
    if ranConditional then results ++ runAgents conditionalAgents else results
  let phases :=
    (if ranConditional then ["Blockchain Security Analysis"] else []) ++
    (if needsExtendedForensics results2 then ["Extended Forensics Analysis"] else [])
  { results := results2
    extendedPhases := phases
    blockchainAnalysisEnabled := hasBlockchainIndicators results2
    extendedForensicsEnabled := needsExtendedForensics results2 }

/-- The chunking loop of `runAnalysis` (Orchestrator.js lines 331-335):
`for (let i = 0; i < n; i += k) chunks.push(entries.slice(i, i + k))`.
The source loop terminates only for `k ≥ 1` (the constructor normalises
`options.maxParallelAgents || 3`, so `k ≥ 1` always holds there); this
definition is used under that assumption. -/
def chunksOf (k : Nat) : List α → List (List α)
  | [] => []
  | x :: xs => (x :: xs.take (k - 1)) :: chunksOf k (xs.drop (k - 1))
termination_by l => l.length
decreasing_by
  simp only [List.length_drop, List.length_cons]
  omega

/-- The `maxParallelAgents` normalisation of the constructor
(Orchestrator.js line 206): `options.maxParallelAgents || 3`. -/
def normMaxParallelAgents (requested : Option Nat) : Nat :=
  match requested with
  | some n => if n = 0 then 3 else n
  | none => 3

/-- A scheduling event: a detector's `analyze()` being issued, or its
promise settling (success or caught failure). -/
inductive SchedEvent (α : Type) where
  | start (a : α)
  | settle (a : α)
deriving Repr, DecidableEq

/-- The event trace of one parallel chunk (Orchestrator.js lines 337-372):
`chunk.map(async ...)` issues every member in order before any `await`
resolves, then `await Promise.all` observes the settlements in some
completion order `order c` (a permutation of the chunk). -/
def chunkTrace (order : List α → List α) (c : List α) : List (SchedEvent α) :=
  c.map .start ++ (order c).map .settle

/-- The full parallel-execution trace: chunks are issued strictly one
after another, each joined by `await Promise.all` before the next. -/
def parallelTrace (order : List α → List α) (chunks : List (List α)) :
    List (SchedEvent α) :=
  (chunks.map (chunkTrace order)).flatten

/-- The sequential-execution trace (Orchestrator.js lines 376-406): each
detector is awaited to completion before the next is issued. -/
def seqTrace (agents : List α) : List (SchedEvent α) :=
  (agents.map (fun a => [SchedEvent.start a, SchedEvent.settle a])).flatten

/-- The assessment record returned by `getSignatureAssessment`
(src/src/utils/signature.js).  The source field `exists` is a Lean
keyword and is modelled as `existsOnDisk`. -/
structure SigAssessment where
  path : String
  existsOnDisk : Bool
  hasAbsolutePath : Bool
  spctlAccepted : Bool
  spctlOutput : String
  codesignOutput : String
  teamIdentifier : Option String
  authorities : List String
  signedByApple : Bool
  signedByDeveloperId : Bool
deriving Repr, DecidableEq

/-- The signature cache, modelling a JS `Map<string, object>` as an
association list in insertion order. -/
abbrev SigCache : Type := List (String × SigAssessment)

/-- `Map.prototype.get`. -/
def sigCacheGet (c : SigCache) (k : String) : Option SigAssessment :=
  match c.find? (fun p => p.1 == k) with
  | some p => some p.2
  | none => none

/-- `Map.prototype.set`: overwrite in place if the key exists, else append. -/
def sigCacheSet (c : SigCache) (k : String) (v : SigAssessment) : SigCache :=
  match c with
  | [] => [(k, v)]
  | p :: rest => if p.1 == k then (k, v) :: rest else p :: sigCacheSet rest k v

/-- `shellQuote` (signature.js lines 10-13): wrap in single quotes after
escaping every embedded single quote (`/'/g` is a single-character global
replace, i.e. a per-character expansion). -/
def shellQuote (value : String) : String :=
  "'" ++ String.mk (value.toList.foldr (fun c acc =>
    (if c == '\'' then "'\"'\"'".toList else [c]) ++ acc) []) ++ "'"

/-- The default assessment returned for a non-absolute or non-existent
path (signature.js lines 54-67). -/
def defaultAssessment (rawPath : String) (existsOnDisk hasAbsolutePath : Bool) :
    SigAssessment :=
  { path := rawPath, existsOnDisk := existsOnDisk
    hasAbsolutePath := hasAbsolutePath
    spctlAccepted := false, spctlOutput := "", codesignOutput := ""
    teamIdentifier := none, authorities := []
    signedByApple := false, signedByDeveloperId := false }

/-- One step of the `codesign` output parse (signature.js lines 90-98).
The source's `trimmed.replace('Authority=', '')` replaces the first
occurrence, which for a line starting with the marker is exactly the
prefix. -/
def parseCodesignLine (acc : List String × Option String) (line : List Char) :
    List String × Option String :=
  let trimmed := trimChars line
  let acc1 :=
    if listIsPrefix "Authority=".toList trimmed then
      (acc.1 ++ [String.mk (trimChars (trimmed.drop 10))], acc.2)
    else acc
  if listIsPrefix "TeamIdentifier=".toList trimmed then
    let v := trimChars (trimmed.drop 15)
    (acc1.1, if v = [] then none else some (String.mk v))
  else acc1

/-- JS `path.startsWith('/')`. -/
def isAbsolutePathStr (s : String) : Bool := listIsPrefix "/".toList s.toList

/-- The token-splitting fallback of `getSignatureAssessment` (signature.js
lines 41-49): a path containing a space falls back to its first
space-separated token when that token exists on disk. -/
def resolveSigPath (fsExists : String → Bool) (rawPath : String) : String :=
  if rawPath.toList.contains ' ' && isAbsolutePathStr rawPath then
    let firstToken := String.mk (rawPath.toList.takeWhile (fun c => c != ' '))
    if fsExists firstToken then firstToken else rawPath
  else rawPath

/-- `getSignatureAssessment` (signature.js lines 38-121), with the
filesystem (`existsSync`) and the shell (`executeShellCommand`) as
oracles.  Returns the assessment, the cache after the call (`none` when
no cache was supplied), and the list of shell commands issued. -/
def getSignatureAssessment (fsExists : String → Bool) (shell : String → String)
    (filePath : String) (cache : Option SigCache) :
    SigAssessment × Option SigCache × List String :=
  let rawPath := filePath
  let path := resolveSigPath fsExists rawPath
  let hasAbsolutePath := isAbsolutePathStr path
  let existsOnDisk := hasAbsolutePath && fsExists path
  if !hasAbsolutePath || !existsOnDisk then
    (defaultAssessment rawPath existsOnDisk hasAbsolutePath, cache, [])
  else
    match cache.bind (fun c => sigCacheGet c path) with
    | some cached => (cached, cache, [])
    | none =>
      let quoted := shellQuote path
      let spctlCmd := "spctl -a -vv --type execute " ++ quoted ++ " 2>&1 || true"
      let spctlOutput := shell spctlCmd
      let codesignCmd := "codesign -dv --verbose=4 " ++ quoted ++ " 2>&1 || true"
      let codesignOutput := shell codesignCmd
      let spctlAccepted := strIncludes (String.mk (toLowerChars spctlOutput.toList)) "accepted"
      let parsed := (splitChars (fun c => c == '\n')
        codesignOutput.toList).foldl parseCodesignLine ([], none)
      let signedByApple := parsed.1.any
        (fun a => strIncludes (String.mk (toLowerChars a.toList)) "apple")
      let signedByDeveloperId := parsed.1.any
        (fun a => strIncludes (String.mk (toLowerChars a.toList)) "developer id")
      let assessment : SigAssessment :=
        { path := path, existsOnDisk := existsOnDisk
          hasAbsolutePath := hasAbsolutePath
          spctlAccepted := spctlAccepted
          spctlOutput := spctlOutput, codesignOutput := codesignOutput
          teamIdentifier := parsed.2, authorities := parsed.1
          signedByApple := signedByApple
          signedByDeveloperId := signedByDeveloperId }
      (assessment, cache.map (fun c => sigCacheSet c path assessment),
        [spctlCmd, codesignCmd])

/-!
A small backtracking regular-expression engine with JavaScript semantics
(leftmost match position, left-biased alternation, greedy and lazy
repetition, `\b` word boundaries).  Each JS regex literal of the source is
transcribed into an `RE` value below.  `matchRE` is fuelled; the fuel
bounds the backtracking depth and is chosen generously relative to the
input length (none of the transcribed patterns can repeat over an empty
body, so well-fuelled runs agree with the JS engine).
-/

/-- Regex abstract syntax. -/
inductive RE where
  | eps
  | cls (p : Char → Bool)
  | seq (a b : RE)
  | alt (a b : RE)
  | rep (lo : Nat) (hi : Option Nat) (lazyMode : Bool) (r : RE)
  | wb

/-- JS `\w` (ASCII word character). -/
def isWordChar (c : Char) : Bool := c.isAlphanum || c == '_'

/-- Backtracking matcher in continuation-passing style.  `prev` is the
character just before the current position (for `\b`), `k` the
continuation receiving the new `prev` and the remaining input.  Returns
the remaining input after the first (JS-preference-ordered) way of
matching `r` such that `k` succeeds. -/
def matchRE (fuel : Nat) (r : RE) (prev : Option Char) (s : List Char)
    (k : Option Char → List Char → Option (List Char)) : Option (List Char) :=
  match fuel with
  | 0 => none
  | fuel + 1 =>
    match r with
    | .eps => k prev s
    | .cls p =>
      match s with
      | [] => none
      | c :: rest => if p c then k (some c) rest else none
    | .seq a b =>
      matchRE fuel a prev s (fun p' s' => matchRE fuel b p' s' k)
    | .alt a b =>
      match matchRE fuel a prev s k with
      | some res => some res
      | none => matchRE fuel b prev s k
    | .wb =>
      let left := match prev with | some c => isWordChar c | none => false
      let right := match s with | c :: _ => isWordChar c | [] => false
      if left != right then k prev s else none
    | .rep lo hi lz body =>
      match lo with
      | n + 1 =>
        matchRE fuel body prev s (fun p' s' =>
          matchRE fuel (.rep n (hi.map (· - 1)) lz body) p' s' k)
      | 0 =>
        match hi with
        | some 0 => k prev s
        | _ =>
          if lz then
            match k prev s with
            | some res => some res
            | none =>
              matchRE fuel body prev s (fun p' s' =>
                matchRE fuel (.rep 0 (hi.map (· - 1)) lz body) p' s' k)
          else
            match matchRE fuel body prev s (fun p' s' =>
                matchRE fuel (.rep 0 (hi.map (· - 1)) lz body) p' s' k) with
            | some res => some res
            | none => k prev s

/-- Fuel bound used when matching at one position. -/
def fuelFor (s : List Char) : Nat := 8 * s.length + 2000

/-- Find the leftmost match of `re` in `s` (with `prev` the character
before `s`).  Returns `(pre, matched, rest)`: the unmatched prefix, the
matched characters, and the remaining suffix. -/
def findFirstMatch (re : RE) (prev : Option Char) (s : List Char) :
    Option (List Char × List Char × List Char) :=
  match matchRE (fuelFor s) re prev s (fun _ rest => some rest) with
  | some rest => some ([], s.take (s.length - rest.length), rest)
  | none =>
    match s with
    | [] => none
    | c :: cs =>
      match findFirstMatch re (some c) cs with
      | some (pre, m, rest) => some (c :: pre, m, rest)
      | none => none

/-- `String.prototype.matchAll` with the `g` flag: repeatedly take the
leftmost match and resume right after it (advancing one character after
an empty match, as the JS iterator does). -/
def matchAllGo (re : RE) (fuel : Nat) (prev : Option Char) (s : List Char) :
    List (List Char) :=
  match fuel with
  | 0 => []
  | fuel + 1 =>
    match findFirstMatch re prev s with
    | none => []
    | some (_, m, rest) =>
      if m.isEmpty then
        match rest with
        | [] => [m]
        | c :: cs => m :: matchAllGo re fuel (some c) cs
      else m :: matchAllGo re fuel m.getLast? rest

/-- All matches of `re` in a string, as strings. -/
def matchAllStr (re : RE) (s : String) : List String :=
  (matchAllGo re (s.toList.length + 1) none s.toList).map String.mk

/-- `String.prototype.replace` with the `g` flag; `repl` maps the matched
text to its replacement (constant for all source patterns except the
password pattern's `$1`). -/
def replaceAllGo (re : RE) (repl : List Char → List Char) (fuel : Nat)
    (prev : Option Char) (s : List Char) : List Char :=
  match fuel with
  | 0 => s
  | fuel + 1 =>
    match findFirstMatch re prev s with
    | none => s
    | some (pre, m, rest) =>
      if m.isEmpty then
        match rest with
        | [] => pre ++ repl m
        | c :: cs => pre ++ repl m ++ c :: replaceAllGo re repl fuel (some c) cs
      else pre ++ repl m ++ replaceAllGo re repl fuel m.getLast? rest

/-- Literal character. -/
def RE.lit (c : Char) : RE := .cls (fun x => x == c)

/-- Literal character under the `i` flag. -/
def RE.litCI (c : Char) : RE := .cls (fun x => x.toLower == c.toLower)

/-- Literal string. -/
def reStr (s : String) : RE :=
  s.toList.foldr (fun c acc => RE.seq (RE.lit c) acc) RE.eps

/-- Literal string under the `i` flag. -/
def reStrCI (s : String) : RE :=
  s.toList.foldr (fun c acc => RE.seq (RE.litCI c) acc) RE.eps

/-- Left-biased alternation of a list (JS `(x|y|...)`). -/
def reAlts : List RE → RE
  | [] => RE.cls (fun _ => false)
  | [r] => r
  | r :: rs => RE.alt r (reAlts rs)

/-- Concatenation of a list. -/
def reCat (rs : List RE) : RE := rs.foldr RE.seq RE.eps

/-- `r+`. -/
def rePlus (r : RE) : RE := .rep 1 none false r

/-- `r{n,}` (greedy). -/
def reAtLeast (n : Nat) (r : RE) : RE := .rep n none false r

/-- `r{lo,hi}` (greedy). -/
def reBetween (lo hi : Nat) (r : RE) : RE := .rep lo (some hi) false r

/-- `[a-fA-F0-9]`. -/
def isHexChar (c : Char) : Bool :=
  ('0' ≤ c && c ≤ '9') || ('a' ≤ c && c ≤ 'f') || ('A' ≤ c && c ≤ 'F')

/-- `[a-zA-Z0-9+/]`. -/
def isB64Char (c : Char) : Bool := c.isAlphanum || c == '+' || c == '/'

/-- `[a-km-zA-HJ-NP-Z1-9]` (Base58). -/
def isBase58Char (c : Char) : Bool :=
  (c.isLower && c != 'l') || (c.isUpper && c != 'I' && c != 'O') ||
  ('1' ≤ c && c ≤ '9')

/-- JS `.` without the `s` flag (anything but a line terminator). -/
def isJsDot (c : Char) : Bool := !(c == '\n' || c == '\r')

/-- `[a-z]` under the `i` flag. -/
def isAsciiAlpha (c : Char) : Bool := c.isAlpha

/-- `candidate.split(/\s+/)` on an already-trimmed string: the maximal
whitespace-free tokens, in order (a `/\s+/` split of a trimmed string
produces no empty tokens; empty segments between consecutive whitespace
characters are merged by the filter). -/
def tokensWs (l : List Char) : List (List Char) :=
  (splitChars isWsChar l).filter (fun t => t ≠ [])

/-- The stopword set of `isLikelySeedPhrase` (LLMAnalyzer.js lines 226-230). -/
def seedStopwords : List String :=
  ["the", "and", "that", "with", "from", "this", "have", "will", "your",
   "macos", "analysis", "system", "security", "process", "service", "launch",
   "agent", "apple", "icloud", "profile"]

/-- `LLMAnalyzer.isLikelySeedPhrase` (LLMAnalyzer.js lines 220-235). -/
def isLikelySeedPhrase (candidate : String) : Bool :=
  if candidate == "" then false
  else
    -- candidate.trim().toLowerCase().split(/\s+/)
    let words := tokensWs (toLowerChars (trimChars candidate.toList))
    if words.length < 12 || words.length > 24 then false
    else if words.any (fun w =>
        !(w.length > 0 && w.all (fun c => 'a' ≤ c && c ≤ 'z'))) then false
    else
      let stopwordHits :=
        (words.filter (fun w => seedStopwords.contains (String.mk w))).length
      let uniqueWords := words.dedup.length
      stopwordHits ≤ 2 && uniqueWords ≥ words.length - 2

/-- `LLMAnalyzer.isLikelyApiKey` (LLMAnalyzer.js lines 237-259).  The
source's float comparison `uniqueRatio < 0.2` is exact as the integer
comparison `5 * unique < length` for the lengths admitted here (both
sides of the float comparison round identically for `length ≤ 120`). -/
def isLikelyApiKey (candidate : String) : Bool :=
  if candidate == "" then false
  else
    let cs := candidate.toList
    let len := cs.length
    if len < 24 || len > 120 then false
    else if strIncludes candidate "<key>" || strIncludes candidate "</key>" then
      false
    else
      let hasUpper := cs.any Char.isUpper
      let hasLower := cs.any Char.isLower
      let hasDigit := cs.any Char.isDigit
      let uniqueCount := cs.dedup.length
      if !(hasDigit && (hasUpper || hasLower)) then false
      else if 5 * uniqueCount < len then false
      else if String.mk (toLowerChars cs) == "string" ||
          String.mk (toLowerChars cs) == "data" then false
      else if len ≥ 11 && (match cs with
          | [] => false
          | c :: rest => isJsDot c && rest.all (fun x => x == c)) then false
      else true

/-- `/0x[a-fA-F0-9]{40}/g` — "Ethereum address". -/
def reEthAddr : RE := reCat [RE.lit '0', RE.lit 'x', reBetween 40 40 (.cls isHexChar)]

/-- `/[a-fA-F0-9]{64,}/g` — "Potential private key". -/
def rePrivKey : RE := reAtLeast 64 (.cls isHexChar)

/-- `/(private|mnemonic|seed).*?[=:][a-zA-Z0-9+\/]{8,}/gi` — "Private key
phrase". -/
def rePrivPhrase : RE :=
  reCat [reAlts [reStrCI "private", reStrCI "mnemonic", reStrCI "seed"],
    .rep 0 none true (.cls isJsDot),
    .cls (fun c => c == '=' || c == ':'),
    reAtLeast 8 (.cls isB64Char)]

/-- `/[a-zA-Z0-9+\/]{32,}={0,2}/g` — "API key or token". -/
def reApiKey : RE :=
  .seq (reAtLeast 32 (.cls isB64Char)) (reBetween 0 2 (RE.lit '='))

/-- `/[6][a-km-zA-HJ-NP-Z1-9]{50,}/g` — "Wallet import format". -/
def reWif : RE := .seq (RE.lit '6') (reAtLeast 50 (.cls isBase58Char))

/-- `/\b([a-z]+(\s+[a-z]+){11,})\b/gi` — "Potential seed phrase". -/
def reSeedPhrase : RE :=
  reCat [.wb, rePlus (.cls isAsciiAlpha),
    reAtLeast 11 (.seq (rePlus (.cls isWsChar)) (rePlus (.cls isAsciiAlpha))),
    .wb]

/-- `/\b[13][a-km-zA-HJ-NP-Z1-9]{25,34}\b/g` — "Bitcoin address". -/
def reBtcAddr : RE :=
  reCat [.wb, .cls (fun c => c == '1' || c == '3'),
    reBetween 25 34 (.cls isBase58Char), .wb]

/-- `/\b[a-fA-F0-9]{16,}\b/g` — "Long hex string". -/
def reLongHex : RE := reCat [.wb, reAtLeast 16 (.cls isHexChar), .wb]

/-- The ordered pattern bank of `performSecurityCheck`
(LLMAnalyzer.js lines 128-177); the unused `test` strings are omitted. -/
def detectPatterns : List (String × RE) :=
  [("Ethereum address", reEthAddr),
   ("Potential private key", rePrivKey),
   ("Private key phrase", rePrivPhrase),
   ("API key or token", reApiKey),
   ("Wallet import format", reWif),
   ("Potential seed phrase", reSeedPhrase),
   ("Bitcoin address", reBtcAddr),
   ("Long hex string", reLongHex)]

/-- The post-filter applied to each raw match (LLMAnalyzer.js lines
188-197): seed-phrase and API-key matches pass through their
false-positive classifiers. -/
def filteredMatchesFor (name : String) (re : RE) (prompt : String) :
    List String :=
  (matchAllStr re prompt).filter (fun v =>
    if name == "Potential seed phrase" then isLikelySeedPhrase v
    else if name == "API key or token" then isLikelyApiKey v
    else true)

/-- Sample masking (LLMAnalyzer.js lines 204-208): truncate to 20
characters plus `'***'`, then replace every hex character with `'*'`. -/
def maskSample (m : String) : String :=
  let t := if m.toList.length > 20 then m.toList.take 20 ++ "***".toList
           else m.toList
  String.mk (t.map (fun c => if isHexChar c then '*' else c))

/-- One recorded `SensitivePatternMatch`: pattern name, match count, and
the masked samples. -/
structure PatternHit where
  name : String
  count : Nat
  samples : List String
deriving Repr, DecidableEq

/-- The result of `performSecurityCheck`. -/
structure SecurityCheck where
  hasSensitiveData : Bool
  sensitivePatterns : List PatternHit
  promptLength : Nat
deriving Repr, DecidableEq

/-- `LLMAnalyzer.performSecurityCheck` (LLMAnalyzer.js lines 127-218). -/
def performSecurityCheck (prompt : String) : SecurityCheck :=
  let hits := detectPatterns.filterMap (fun p =>
    let fm := filteredMatchesFor p.1 p.2 prompt
    if fm.length > 0 then
      some { name := p.1, count := fm.length
             samples := (fm.take 2).map maskSample }
    else none)
  { hasSensitiveData := !hits.isEmpty
    sensitivePatterns := hits
    promptLength := prompt.toList.length }

/-!
`ReportSanitizer` (src/src/report/utils/formatter.js, lines 429-527),
with the default options the `LLMAnalyzer` constructor passes
(`redactUsernames: true`, so the email pattern is active).
-/

/-- `/[a-fA-F0-9]{64}/g` → `'***REDACTED_PRIVATE_KEY***'`. -/
def sanPrivKeyRE : RE := reBetween 64 64 (.cls isHexChar)

/-- `/0x[a-fA-F0-9]{40}/g` → `'0x***REDACTED_ETH_ADDRESS***'`. -/
def sanEthRE : RE := reEthAddr

/-- `/[13][a-km-zA-HJ-NP-Z1-9]{25,34}/g` → `'***REDACTED_BTC_ADDRESS***'`
(note: unlike the analyzer's Bitcoin pattern, no word boundaries). -/
def sanBtcRE : RE :=
  .seq (.cls (fun c => c == '1' || c == '3')) (reBetween 25 34 (.cls isBase58Char))

/-- `/[a-zA-Z0-9]{32,}={0,2}/g` → `'***REDACTED_API_KEY***'`. -/
def sanApiRE : RE :=
  .seq (reAtLeast 32 (.cls Char.isAlphanum)) (reBetween 0 2 (RE.lit '='))

/-- `/(password|secret|key|token)[\s=:]+[a-zA-Z0-9+\/]{8,}/gi` →
`'$1***REDACTED***'`. -/
def sanPassRE : RE :=
  reCat [reAlts [reStrCI "password", reStrCI "secret", reStrCI "key",
      reStrCI "token"],
    rePlus (.cls (fun c => isWsChar c || c == '=' || c == ':')),
    reAtLeast 8 (.cls isB64Char)]

/-- The trigger-word list of the sanitizer's mnemonic pattern
(formatter.js lines 484-488), duplicate `'letter'` included. -/
def mnemonicTriggerWords : List String :=
  ["word", "agree", "letter", "again", "animal", "already", "between",
   "certain", "close", "common", "could", "describe", "engine", "every",
   "example", "few", "first", "follow", "group", "have", "important",
   "inside", "just", "large", "lead", "letter", "local", "matter", "might",
   "never", "number", "open", "order", "place", "point", "question",
   "right", "second", "see", "small", "sound", "still", "such", "tell",
   "thing", "think", "three", "under", "until", "voice", "water", "where",
   "which", "world", "write", "year", "yes", "your", "zone"]

/-- `/\b(word|agree|...|zone)\b.{0,200}/gi` → `'***REDACTED_MNEMONIC***'`. -/
def sanMnemonicRE : RE :=
  reCat [.wb, reAlts (mnemonicTriggerWords.map reStrCI), .wb,
    reBetween 0 200 (.cls isJsDot)]

/-- `/[a-fA-F0-9]{16,31}/g` → `'***REDACTED_HEX***'`. -/
def sanHexRE : RE := reBetween 16 31 (.cls isHexChar)

/-- `/\b[A-Za-z0-9._%+-]+@[A-Za-z0-9.-]+\.[A-Z|a-z]{2,}\b/g` →
`'***REDACTED_EMAIL***'` (active because `redactUsernames` is true;
the source class `[A-Z|a-z]` literally includes `'|'`). -/
def sanEmailRE : RE :=
  reCat [.wb,
    rePlus (.cls (fun c => c.isAlphanum || c == '.' || c == '_' ||
      c == '%' || c == '+' || c == '-')),
    RE.lit '@',
    rePlus (.cls (fun c => c.isAlphanum || c == '.' || c == '-')),
    RE.lit '.',
    reAtLeast 2 (.cls (fun c => c.isAlpha || c == '|')),
    .wb]

/-- The `'$1***REDACTED***'` replacement of the password pattern: the
match necessarily begins with exactly one of the four keywords (none is
a prefix of another), and `$1` is that keyword as it appeared. -/
def sanPassRepl (m : List Char) : List Char :=
  let lm := toLowerChars m
  let keyLen :=
    if listIsPrefix "password".toList lm then 8
    else if listIsPrefix "secret".toList lm then 6
    else if listIsPrefix "token".toList lm then 5
    else 3
  m.take keyLen ++ "***REDACTED***".toList

/-- The ordered pattern/replacement bank of
`ReportSanitizer.initializePatterns` (formatter.js lines 446-504). -/
def sanitizePatternList : List (RE × (List Char → List Char)) :=
  [(sanPrivKeyRE, fun _ => "***REDACTED_PRIVATE_KEY***".toList),
   (sanEthRE, fun _ => "0x***REDACTED_ETH_ADDRESS***".toList),
   (sanBtcRE, fun _ => "***REDACTED_BTC_ADDRESS***".toList),
   (sanApiRE, fun _ => "***REDACTED_API_KEY***".toList),
   (sanPassRE, sanPassRepl),
   (sanMnemonicRE, fun _ => "***REDACTED_MNEMONIC***".toList),
   (sanHexRE, fun _ => "***REDACTED_HEX***".toList),
   (sanEmailRE, fun _ => "***REDACTED_EMAIL***".toList)]

/-- One pass of `sanitizeText`'s pattern loop (the source's `match`
pre-check before `replace` has no observable effect). -/
def applySanitizePattern (s : List Char) (p : RE × (List Char → List Char)) :
    List Char :=
  replaceAllGo p.1 p.2 (s.length + 1) none s

/-- `ReportSanitizer.sanitizeText` (formatter.js lines 509-527). -/
def sanitizeText (text : String) : String :=
  String.mk (sanitizePatternList.foldl applySanitizePattern text.toList)

/-!
`LLMAnalyzer.analyze` (LLMAnalyzer.js lines 66-122): the control flow
around the security gate, with the external provider as an oracle.
-/

/-- A normal (non-throwing) return of `analyze`. -/
inductive AnalyzeOk where
  | disabledMsg
  | skippedBelowThreshold
  | completed (analysis : String)
deriving Repr, DecidableEq

/-- What one `analyze` call did: its outcome (`Except.error` models a
thrown `Error`), whether an external provider call was issued, and the
`securityCheck.sensitivePatterns` metadata recorded for the run. -/
structure AnalyzeRun where
  outcome : Except String AnalyzeOk
  providerCalled : Bool
  recordedPatterns : List PatternHit
deriving Repr, DecidableEq

/-- `LLMAnalyzer.analyze` (LLMAnalyzer.js lines 66-122).  `enabled`,
`totalFindings` (the source's `results?.summary?.totalFindings || 0`),
`minFindingsToAnalyze` and `apiKey` mirror the instance state; `prompt`
is the assembled outbound text (`options.promptOverride ||
this.buildPrompt(...)`); `callProvider` stands for
`analyzeWithOpenAI` / `analyzeWithClaude`. -/
def analyzeLLM (enabled : Bool) (totalFindings minFindingsToAnalyze : Nat)
    (apiKey : Option String) (prompt : String)
    (callProvider : String → Except String String) : AnalyzeRun :=
  if !enabled then
    { outcome := .ok .disabledMsg, providerCalled := false
      recordedPatterns := [] }
  else if totalFindings < minFindingsToAnalyze then
    { outcome := .ok .skippedBelowThreshold, providerCalled := false
      recordedPatterns := [] }
  else if apiKey.isNone then
    { outcome := .error "API key not found", providerCalled := false
      recordedPatterns := [] }
  else
    let securityCheck := performSecurityCheck prompt
    if securityCheck.hasSensitiveData then
      { outcome := .error
          "SECURITY: Sensitive data detected - LLM analysis aborted to prevent privacy leakage"
        providerCalled := false
        recordedPatterns := securityCheck.sensitivePatterns }
    else
      match callProvider prompt with
      | .ok analysis =>
        { outcome := .ok (.completed analysis), providerCalled := true
          recordedPatterns := securityCheck.sensitivePatterns }
      | .error e =>
        { outcome := .error ("LLM analysis failed: " ++ e)
          providerCalled := true
          recordedPatterns := securityCheck.sensitivePatterns }

/-!
Claim-side (spec-worded) definitions, used only to compare the source
behaviour against the specification text, plus concrete fixtures.
-/

/-- Spec-side total: "summary.totalFindings equals the sum of
len(findings) over all DetectorResults in the map (a non-array findings
field counting as zero)". -/
def specTotalFindings (rs : Results) : Nat :=
  (rs.map (fun p =>
    match p.2 with
    | some r => (r.findings.getD []).length
    | none => 0)).sum

/-- Spec-side seed-phrase acceptance, worded after the claim: token count
in `[12,24]`, every token purely alphabetic, at most 2 stopword hits, at
most 2 duplicate tokens.  Tokens are the whitespace-separated words of
the lowercased, trimmed candidate. -/
def SeedPhraseSpec (c : String) : Prop :=
  let toks := tokensWs (toLowerChars (trimChars c.toList))
  12 ≤ toks.length ∧ toks.length ≤ 24 ∧
  (∀ w ∈ toks, w ≠ [] ∧ ∀ ch ∈ w, 'a' ≤ ch ∧ ch ≤ 'z') ∧
  (toks.countP (fun w => seedStopwords.contains (String.mk w))) ≤ 2 ∧
  toks.length - toks.dedup.length ≤ 2

/-- A 12-word seed phrase of distinct dictionary words, none of which is
a detector stopword, a sanitizer mnemonic trigger word, or contains a
password-pattern keyword. -/
def seedPhraseExample : String :=
  "banana cherry damson elephant falcon grape horse igloo jungle kiwi lemon mango"

/-- Ordinary prose: 14 lowercase words with far more than 2 stopword hits. -/
def proseExample : String :=
  "the analysis of the system process and the service will launch from this profile"

/-- A 64-hex-character private-key-shaped string. -/
def privateKeyExample : String :=
  "abcdef1234567890abcdef1234567890abcdef1234567890abcdef1234567890"

/-- A `0x`+40-hex Ethereum address. -/
def ethAddressExample : String := "0x742d35Cc6634C0532925a3b844Bc9e7595f0bEb8"

/-- A Base58 Bitcoin-address-shaped string. -/
def btcAddressExample : String := "1A1zP1eP5QGefi2DMPTfTL5SLmv7DivfNa"

/-- A 33-character API-key-shaped alphanumeric token. -/
def apiKeyExample : String := "ghijkmnopqrstuvwxyzGHJKMNPQRSTUVW"

/-- A `key=value` password pair. -/
def passPairExample : String := "password=Zqx9rTw2"

/-- A result map in which every detector failed: each entry is the
`{agent, error, overallRisk:'unknown'}` record the scheduler stores for a
thrown `analyze()`. -/
def allErroredResults : Results :=
  [("process", some { agent := some "ProcessAgent", error := some "boom"
                      findings := none, overallRisk := some "unknown" }),
   ("network", some { agent := some "NetworkAgent", error := some "fail"
                      findings := none, overallRisk := some "unknown" })]

/-- Phase-1 results with one high-risk finding and no blockchain
keywords: the depth trigger holds, the indicator trigger does not. -/
def depthOnlyResults : Results :=
  [("process", some { agent := some "ProcessAgent", error := none,
                      findings := some [some { risk := some "high",
                                               description := some "suspicious launchdaemon" }],
                      overallRisk := some "high" })]

/-- The conditional (adaptive) detector set, both succeeding. -/
def conditionalAgentsExample : List AgentSpec :=
  [("blockchain", "BlockchainAgent",
     Except.ok { overallRisk := some "low", findings := some [] }),
   ("defi", "DeFiSecurityAgent",
     Except.ok { overallRisk := some "low", findings := some [] })]

/-- A result map whose single entry carries both an error and a non-empty
findings list. -/
def erroredWithFindingsResults : Results :=
  [("process", some { agent := some "ProcessAgent", error := some "x",
                      findings := some [some { risk := some "high" }],
                      overallRisk := some "unknown" })]

/-- A filesystem oracle for the signature fixtures: only
`/usr/bin/tool` exists. -/
def sigFsExample : String → Bool := fun p => p == "/usr/bin/tool"

/-- A shell oracle for the signature fixtures. -/
def sigShellExample : String → String := fun c =>
  if strIncludes c "codesign" then
    "Authority=Developer ID Application: Example\nTeamIdentifier=TEAM1"
  else "source=Notarized Developer ID\norigin accepted"

/-- The guard of `getSignatureAssessment`: the resolved path is absolute
and exists on disk (the complement of the early-return condition of
signature.js line 54). -/
def sigGuardOk (fs : String → Bool) (p : String) : Bool :=
  isAbsolutePathStr (resolveSigPath fs p) && fs (resolveSigPath fs p)

/-- The six core detector keys, in their registration order
(Orchestrator.js lines 215-226). -/
def schedulerAgentsExample : List String :=
  ["resource", "system", "persistence", "process", "network", "permission"]

/-- Phase-1 side of the detector-failure fixture. -/
def c6Before : List AgentSpec :=
  [("process", "ProcessAgent", Except.ok { overallRisk := some "low" })]

/-- Detectors scheduled after the failing one in the fixture. -/
def c6After : List AgentSpec :=
  [("network", "NetworkAgent", Except.ok { overallRisk := some "high" })]




/-!
Helper lemmas shared by the claim theorems.
-/

set_option maxRecDepth 100000

theorem mem_risksOf {rs : Results} {x : String} :
    x ∈ risksOf rs ↔ ∃ p ∈ rs, ∃ r, p.2 = some r ∧ r.overallRisk = some x := by
  simp only [risksOf, List.mem_filterMap, Option.bind_eq_some]

theorem calcRisk_ite (rs : Results) : calculateOverallRisk (some rs) =
    (if (risksOf rs).isEmpty then "unknown"
     else if (risksOf rs).contains "high" then "high"
     else if (risksOf rs).contains "medium" then "medium"
     else "low") := rfl

theorem all_unknown_imp_low (rs : Results)
    (hall : ∀ p ∈ rs, ∃ r, p.2 = some r ∧ r.overallRisk = some "unknown")
    (hne : rs ≠ []) : calculateOverallRisk (some rs) = "low" := by
  have hmem : ∀ x ∈ risksOf rs, x = "unknown" := by
    intro x hx
    rcases mem_risksOf.mp hx with ⟨p, hp, r, hr, ho⟩
    rcases hall p hp with ⟨r', hr', ho'⟩
    rw [hr] at hr'
    cases hr'
    rw [ho'] at ho
    exact (Option.some.inj ho).symm
  have hne' : risksOf rs ≠ [] := by
    match rs, hne with
    | p :: rest, _ =>
      rcases hall p (by simp) with ⟨r, hr, ho⟩
      intro hemp
      have hm : "unknown" ∈ risksOf (p :: rest) :=
        mem_risksOf.mpr ⟨p, by simp, r, hr, ho⟩
      rw [hemp] at hm
      simp at hm
  have h2 : "high" ∉ risksOf rs := by
    intro h
    have := hmem _ h
    simp at this
  have h3 : "medium" ∉ risksOf rs := by
    intro h
    have := hmem _ h
    simp at this
  rw [calcRisk_ite]
  simp [hne', h2, h3]

theorem matchRisk_iff (f? : Option Finding) (v : String) :
    ((match f? with
      | some f => f.risk == some v
      | none => false) = true) ↔ ∃ f, f? = some f ∧ f.risk = some v := by
  cases f? <;> simp

theorem derive_ite (fs : List (Option Finding)) (r : String) :
    deriveRiskFromFindings (some fs) r =
    (if fs.isEmpty then "low"
     else if fs.any (fun f? => match f? with
        | some f => f.risk == some "high"
        | none => false) then "high"
     else if fs.any (fun f? => match f? with
        | some f => f.risk == some "medium"
        | none => false) then "medium"
     else "low") := rfl

theorem summaryStep_fields (acc : Summary) (p : String × Option AgentResult) :
    (summaryStep acc p).totalFindings =
      acc.totalFindings + (errorFreeFindings p).length ∧
    (summaryStep acc p).highRiskFindings =
      acc.highRiskFindings + tallyHigh (errorFreeFindings p) ∧
    (summaryStep acc p).mediumRiskFindings =
      acc.mediumRiskFindings + tallyMedium (errorFreeFindings p) ∧
    (summaryStep acc p).lowRiskFindings =
      acc.lowRiskFindings + tallyLow (errorFreeFindings p) ∧
    (summaryStep acc p).error = acc.error := by
  rcases p with ⟨k, r?⟩
  cases r? with
  | none => simp [summaryStep, errorFreeFindings, tallyHigh, tallyMedium, tallyLow]
  | some r =>
    cases hre : r.error with
    | some e =>
      simp [summaryStep, errorFreeFindings, hre, tallyHigh, tallyMedium, tallyLow]
    | none =>
      simp [summaryStep, errorFreeFindings, hre]

theorem summary_fold (rs : Results) (acc : Summary) :
    (rs.foldl summaryStep acc).totalFindings =
      acc.totalFindings + (rs.map (fun p => (errorFreeFindings p).length)).sum ∧
    (rs.foldl summaryStep acc).highRiskFindings =
      acc.highRiskFindings + (rs.map (fun p => tallyHigh (errorFreeFindings p))).sum ∧
    (rs.foldl summaryStep acc).mediumRiskFindings =
      acc.mediumRiskFindings + (rs.map (fun p => tallyMedium (errorFreeFindings p))).sum ∧
    (rs.foldl summaryStep acc).lowRiskFindings =
      acc.lowRiskFindings + (rs.map (fun p => tallyLow (errorFreeFindings p))).sum ∧
    (rs.foldl summaryStep acc).error = acc.error := by
  induction rs generalizing acc with
  | nil => simp
  | cons p rest ih =>
    obtain ⟨i1, i2, i3, i4, i5⟩ := ih (summaryStep acc p)
    obtain ⟨s1, s2, s3, s4, s5⟩ := summaryStep_fields acc p
    refine ⟨?_, ?_, ?_, ?_, ?_⟩ <;>
      simp only [List.foldl_cons, List.map_cons, List.sum_cons, i1, i2, i3, i4, i5,
        s1, s2, s3, s4, s5] <;> omega

theorem runAgents_keys (l : List AgentSpec) :
    (runAgents l).map Prod.fst = l.map Prod.fst := by
  induction l with
  | nil => rfl
  | cons a rest ih =>
    rcases a with ⟨k', nme', out⟩
    cases out <;> simp [runAgents, recordAgent] <;> simpa [runAgents] using ih

theorem chunksOf_nil (k : Nat) : chunksOf k ([] : List α) = [] := by
  rw [chunksOf]

theorem chunksOf_cons (k : Nat) (x : α) (xs : List α) :
    chunksOf k (x :: xs) =
      (x :: xs.take (k - 1)) :: chunksOf k (xs.drop (k - 1)) := by
  rw [chunksOf]

theorem chunksOf_flatten (k : Nat) (hk : 1 ≤ k) (l : List α) :
    (chunksOf k l).flatten = l := by
  induction l using chunksOf.induct k with
  | case1 => simp [chunksOf_nil]
  | case2 x xs ih =>
    rw [chunksOf_cons, List.flatten_cons, ih]
    simp [List.take_append_drop]

theorem chunksOf_mem (k : Nat) (hk : 1 ≤ k) (l : List α) :
    ∀ c ∈ chunksOf k l, c.length ≤ k ∧ c ≠ [] := by
  induction l using chunksOf.induct k with
  | case1 => simp [chunksOf_nil]
  | case2 x xs ih =>
    rw [chunksOf_cons]
    intro c hc
    rcases List.mem_cons.mp hc with hc | hc
    · constructor
      · simp only [hc, List.length_cons]
        have := List.length_take_le (k - 1) xs
        omega
      · simp [hc]
    · exact ih c hc

theorem chunksOf_full (k : Nat) (hk : 1 ≤ k) (l : List α) :
    ∀ i, i + 1 < (chunksOf k l).length →
      ∀ h : i < (chunksOf k l).length, ((chunksOf k l)[i]).length = k := by
  induction l using chunksOf.induct k with
  | case1 => simp [chunksOf_nil]
  | case2 x xs ih =>
    rw [chunksOf_cons]
    intro i hi1 hi
    match i with
    | 0 =>
      simp only [List.getElem_cons_zero, List.length_cons]
      have hrest : chunksOf k (xs.drop (k - 1)) ≠ [] := by
        intro hnil
        simp only [List.length_cons, hnil] at hi1
        simp at hi1
      have hdrop : xs.drop (k - 1) ≠ [] := by
        intro hnil
        rw [hnil, chunksOf_nil] at hrest
        exact hrest rfl
      have hlen : k - 1 < xs.length := by
        by_contra h
        push_neg at h
        exact hdrop (List.drop_eq_nil_of_le h)
      rw [List.length_take]
      omega
    | i + 1 =>
      simp only [List.getElem_cons_succ]
      exact ih i (by simpa using hi1) (by simpa using hi)

theorem mem_of_get? {l : List β} {n : Nat} {a : β} (h : l[n]? = some a) :
    a ∈ l := by
  obtain ⟨hlt, he⟩ := List.getElem?_eq_some.mp h
  exact he ▸ List.getElem_mem _

theorem append_pos_lt {A B : List β} {x y : β} (hx : x ∉ B) (hy : y ∉ A)
    {n m : Nat} (hn : (A ++ B)[n]? = some x) (hm : (A ++ B)[m]? = some y) :
    n < m := by
  have hnA : n < A.length := by
    by_contra hcon
    push_neg at hcon
    rw [List.getElem?_append_right hcon] at hn
    exact hx (mem_of_get? hn)
  have hmA : A.length ≤ m := by
    by_contra hcon
    push_neg at hcon
    have heq : (A ++ B)[m]? = A[m]? := by
      rw [List.getElem?_append]
      simp [hcon]
    rw [heq] at hm
    exact hy (mem_of_get? hm)
  omega

theorem settle_mem_chunkTrace {ord : List β → List β} {c : List β} {a : β}
    (hordc : (ord c).Perm c) :
    SchedEvent.settle a ∈ chunkTrace ord c ↔ a ∈ c := by
  simp [chunkTrace, List.mem_map]
  exact hordc.mem_iff

theorem start_mem_chunkTrace {ord : List β → List β} {c : List β} {a : β} :
    SchedEvent.start a ∈ chunkTrace ord c ↔ a ∈ c := by
  simp [chunkTrace, List.mem_map]

theorem parallel_join_order (k : Nat) (hk : 1 ≤ k) (agents : List β)
    (hnd : agents.Nodup) (ord : List β → List β)
    (hord : ∀ c, (ord c).Perm c) {i j : Nat}
    (hj : j < (chunksOf k agents).length) (hij : i < j)
    {a b : β} (ha : a ∈ (chunksOf k agents)[i])
    (hb : b ∈ (chunksOf k agents)[j]) {n m : Nat}
    (hn : (parallelTrace ord (chunksOf k agents))[n]? = some (.settle a))
    (hm : (parallelTrace ord (chunksOf k agents))[m]? = some (.start b)) :
    n < m := by
  have hi : i < (chunksOf k agents).length := lt_trans hij hj
  have hnodup : (chunksOf k agents).flatten.Nodup := by
    rw [chunksOf_flatten k hk]; exact hnd
  have hdisj : (chunksOf k agents).Pairwise List.Disjoint :=
    (List.nodup_flatten.mp hnodup).2
  have hsplit : parallelTrace ord (chunksOf k agents) =
      (((chunksOf k agents).take (i+1)).map (chunkTrace ord)).flatten ++
      (((chunksOf k agents).drop (i+1)).map (chunkTrace ord)).flatten := by
    rw [parallelTrace, ← List.flatten_append, ← List.map_append,
      List.take_append_drop]
  rw [hsplit] at hn hm
  apply append_pos_lt ?hx ?hy hn hm
  case hx =>
    intro hmem
    rw [List.mem_flatten] at hmem
    obtain ⟨t, ht, hat⟩ := hmem
    rw [List.mem_map] at ht
    obtain ⟨c', hc', rfl⟩ := ht
    obtain ⟨idx, hidx, he⟩ := List.getElem_of_mem hc'
    have hidx' : i + 1 + idx < (chunksOf k agents).length := by
      have := List.length_drop (i+1) (chunksOf k agents)
      omega
    have he' : (chunksOf k agents)[i + 1 + idx] = c' := by
      rw [← he, List.getElem_drop]
    have hdis : List.Disjoint ((chunksOf k agents)[i])
        ((chunksOf k agents)[i + 1 + idx]) :=
      List.pairwise_iff_getElem.mp hdisj i (i + 1 + idx) hi hidx' (by omega)
    have hac' : a ∈ c' := (settle_mem_chunkTrace (hord c')).mp hat
    rw [he'] at hdis
    exact hdis ha hac'
  case hy =>
    intro hmem
    rw [List.mem_flatten] at hmem
    obtain ⟨t, ht, hat⟩ := hmem
    rw [List.mem_map] at ht
    obtain ⟨c', hc', rfl⟩ := ht
    obtain ⟨idx, hidx, he⟩ := List.getElem_of_mem hc'
    have hidxlen : idx < i + 1 := by
      have := List.length_take (i+1) (chunksOf k agents)
      omega
    have hidx' : idx < (chunksOf k agents).length :=
      lt_of_lt_of_le hidxlen (by omega)
    have he' : (chunksOf k agents)[idx] = c' := by
      rw [← he, List.getElem_take]
    have hdis : List.Disjoint ((chunksOf k agents)[idx])
        ((chunksOf k agents)[j]) :=
      List.pairwise_iff_getElem.mp hdisj idx j hidx' hj (by omega)
    have hbc' : b ∈ c' := start_mem_chunkTrace.mp hat
    rw [he'] at hdis
    exact hdis hbc' hb

theorem seqTrace_step (agents : List β) :
    ∀ n, ∀ a : β, (seqTrace agents)[n]? = some (.start a) →
      (seqTrace agents)[n+1]? = some (.settle a) := by
  induction agents with
  | nil => intro n a h; simp [seqTrace] at h
  | cons x rest ih =>
    intro n a h
    have hexp : seqTrace (x :: rest) =
        SchedEvent.start x :: SchedEvent.settle x :: seqTrace rest := by
      simp [seqTrace]
    rw [hexp] at h ⊢
    match n with
    | 0 =>
      simp only [List.getElem?_cons_zero, Option.some.injEq] at h
      simp [← SchedEvent.start.inj h]
    | 1 => simp at h
    | n + 2 =>
      simp only [List.getElem?_cons_succ] at h ⊢
      exact ih n a h

theorem seed_iff (c : String) : isLikelySeedPhrase c = true ↔ SeedPhraseSpec c := by
  by_cases hc : c = ""
  · subst hc
    constructor
    · intro h
      exact absurd h (by decide)
    · intro h
      obtain ⟨h12, _⟩ := h
      revert h12
      decide
  · unfold isLikelySeedPhrase SeedPhraseSpec
    rw [if_neg (by simpa using hc)]
    set toks := tokensWs (toLowerChars (trimChars c.toList)) with htoks
    by_cases h1 : (toks.length < 12 || toks.length > 24) = true
    · rw [if_pos h1]
      simp only [Bool.false_eq_true, false_iff]
      simp only [Bool.or_eq_true, decide_eq_true_iff] at h1
      rintro ⟨ha, hb, _⟩
      omega
    · rw [if_neg h1]
      simp only [Bool.or_eq_true, decide_eq_true_iff, not_or] at h1
      by_cases h2 : (toks.any fun w =>
          !(w.length > 0 && w.all (fun ch => 'a' ≤ ch && ch ≤ 'z'))) = true
      · rw [if_pos h2]
        simp only [Bool.false_eq_true, false_iff]
        simp only [List.any_eq_true, Bool.not_eq_true',
          Bool.and_eq_false_iff] at h2
        rintro ⟨_, _, hall, _, _⟩
        obtain ⟨w, hw, hbad⟩ := h2
        obtain ⟨hne, hch⟩ := hall w hw
        rcases hbad with hbad | hbad
        · simp only [decide_eq_false_iff_not, not_lt, Nat.le_zero,
            List.length_eq_zero] at hbad
          exact hne hbad
        · rw [List.all_eq_false] at hbad
          obtain ⟨ch, hchm, hchbad⟩ := hbad
          obtain ⟨hla, hlb⟩ := hch ch hchm
          simp [hla, hlb] at hchbad
      · rw [if_neg h2]
        have h2' : (toks.any fun w =>
            !(w.length > 0 && w.all (fun ch => 'a' ≤ ch && ch ≤ 'z'))) = false :=
          Bool.eq_false_iff.mpr h2
        rw [List.any_eq_false] at h2'
        have hgood : ∀ w ∈ toks, w ≠ [] ∧ ∀ ch ∈ w, 'a' ≤ ch ∧ ch ≤ 'z' := by
          intro w hw
          have hthis := h2' w hw
          simp only [Bool.not_eq_true, Bool.not_eq_false', Bool.and_eq_true,
            decide_eq_true_iff, List.all_eq_true] at hthis
          obtain ⟨hlen, hall⟩ := hthis
          refine ⟨by simpa using List.length_pos.mp hlen, fun ch hchm => ?_⟩
          simpa using hall ch hchm
        simp only [Bool.and_eq_true, decide_eq_true_iff]
        have hd : toks.dedup.length ≤ toks.length :=
          (List.dedup_sublist toks).length_le
        constructor
        · rintro ⟨hstop, huniq⟩
          refine ⟨by omega, by omega, hgood, ?_, by omega⟩
          rw [← List.countP_eq_length_filter] at hstop
          exact hstop
        · rintro ⟨ha, hb, hall, hstop, huniq⟩
          refine ⟨?_, by omega⟩
          rw [← List.countP_eq_length_filter]
          exact hstop

theorem sigCacheGet_set (c : SigCache) (k : String) (v : SigAssessment) :
    sigCacheGet (sigCacheSet c k v) k = some v := by
  induction c with
  | nil => simp [sigCacheSet, sigCacheGet]
  | cons p rest ih =>
    by_cases h : p.1 == k
    · simp [sigCacheSet, sigCacheGet, h]
    · simp only [sigCacheSet, h, Bool.false_eq_true, if_false]
      simp only [sigCacheGet, List.find?_cons, h]
      exact ih

theorem maskChars_masked (l : List Char) :
    ((if l.length > 20 then l.take 20 ++ "***".toList else l).map
      (fun c => if isHexChar c then '*' else c)).length ≤ 23 ∧
    ∀ ch ∈ ((if l.length > 20 then l.take 20 ++ "***".toList else l).map
      (fun c => if isHexChar c then '*' else c)), isHexChar ch = false := by
  constructor
  · by_cases h : l.length > 20
    · rw [if_pos h, List.length_map, List.length_append]
      have h1 := List.length_take_le 20 l
      have h3 : ("***".toList).length = 3 := rfl
      omega
    · rw [if_neg h, List.length_map]
      omega
  · intro ch hch
    rw [List.mem_map] at hch
    obtain ⟨c0, _, he⟩ := hch
    subst he
    by_cases hh : isHexChar c0
    · rw [if_pos hh]
      decide
    · rw [if_neg hh]
      exact Bool.eq_false_iff.mpr hh

theorem maskSample_masked (m : String) :
    (maskSample m).toList.length ≤ 23 ∧
    ∀ ch ∈ (maskSample m).toList, isHexChar ch = false :=
  maskChars_masked m.toList

theorem hits_shape (prompt : String) :
    ∀ hit ∈ (performSecurityCheck prompt).sensitivePatterns,
      hit.samples.length ≤ 2 ∧
      ∀ s ∈ hit.samples, s.toList.length ≤ 23 ∧
        ∀ ch ∈ s.toList, isHexChar ch = false := by
  intro hit hmem
  simp only [performSecurityCheck, List.mem_filterMap] at hmem
  obtain ⟨pat, _, hmk⟩ := hmem
  by_cases hlen : (filteredMatchesFor pat.1 pat.2 prompt).length > 0
  · rw [if_pos hlen] at hmk
    injection hmk with he
    subst he
    constructor
    · simp only [List.length_map]
      simpa using List.length_take_le 2 _
    · intro s hs
      simp only [List.mem_map] at hs
      obtain ⟨m, _, he⟩ := hs
      subst he
      exact maskSample_masked m
  · rw [if_neg hlen] at hmk
    exact absurd hmk (by simp)

/-!
Claim theorems.
-/

/-- Claim C1 (counterexample): the claim's last conjunct says the
external-analysis step is "marked skipped-for-security, not failed"; the
source instead throws
`Error('SECURITY: Sensitive data detected - LLM analysis aborted ...')`
(LLMAnalyzer.js line 89), which the CLI caller surfaces as a failed AI
analysis.  At a concrete prompt containing a 64-hex private-key-shaped
substring the call ends in that thrown error — an error outcome, not a
skip return like the `disabled` / `below-threshold` paths. -/
theorem claim1_firewall_gate_counterexample :
    (analyzeLLM true 3 1 (some "api-key-present") privateKeyExample
        (fun _ => Except.ok "provider-response")).outcome =
      Except.error
        "SECURITY: Sensitive data detected - LLM analysis aborted to prevent privacy leakage" ∧
    (analyzeLLM true 3 1 (some "api-key-present") privateKeyExample
        (fun _ => Except.ok "provider-response")).providerCalled = false ∧
    (∀ ok, (analyzeLLM true 3 1 (some "api-key-present") privateKeyExample
        (fun _ => Except.ok "provider-response")).outcome ≠ Except.ok ok) := by
  refine ⟨by decide, by decide, ?_⟩
  intro ok
  have h : (analyzeLLM true 3 1 (some "api-key-present") privateKeyExample
      (fun _ => Except.ok "provider-response")).outcome =
      Except.error
        "SECURITY: Sensitive data detected - LLM analysis aborted to prevent privacy leakage" := by
    decide
  rw [h]
  simp

/-- Claim C1 (amended): for every outbound prompt, if the firewall check
reports sensitive data then `analyze` never reaches a provider call, and
the recorded metadata per detected pattern is only the pattern name, the
match count, and at most two masked (hex characters starred) and
truncated (at most 23 characters) samples — but the step terminates by
THROWING the SECURITY error rather than being marked
skipped-for-security. -/
theorem claim1_firewall_gate (totalFindings minFindings : Nat) (key : String)
    (prompt : String) (callProvider : String → Except String String)
    (hthresh : minFindings ≤ totalFindings)
    (hsens : (performSecurityCheck prompt).hasSensitiveData = true) :
    analyzeLLM true totalFindings minFindings (some key) prompt callProvider =
      { outcome := Except.error
          "SECURITY: Sensitive data detected - LLM analysis aborted to prevent privacy leakage",
        providerCalled := false,
        recordedPatterns := (performSecurityCheck prompt).sensitivePatterns } ∧
    (∀ hit ∈ (performSecurityCheck prompt).sensitivePatterns,
      hit.samples.length ≤ 2 ∧
      ∀ s ∈ hit.samples, s.toList.length ≤ 23 ∧
        ∀ ch ∈ s.toList, isHexChar ch = false) := by
  refine ⟨?_, hits_shape prompt⟩
  unfold analyzeLLM
  rw [if_neg (by simp)]
  rw [if_neg (by omega)]
  rw [if_neg (by simp)]
  rw [if_pos hsens]

/-- Witness for C1: the amended theorem applied to a concrete
64-hex-character prompt. -/
theorem claim1_firewall_gate_witness :
    analyzeLLM true 3 1 (some "api-key-present") privateKeyExample
        (fun _ => Except.ok "provider-response") =
      { outcome := Except.error
          "SECURITY: Sensitive data detected - LLM analysis aborted to prevent privacy leakage",
        providerCalled := false,
        recordedPatterns :=
          (performSecurityCheck privateKeyExample).sensitivePatterns } :=
  (claim1_firewall_gate 3 1 "api-key-present" privateKeyExample
    (fun _ => Except.ok "provider-response") (by decide) (by decide)).1

/-- Claim C2 (counterexample): the claim says a run in which every
detector failed (every result is `{error, overallRisk:'unknown'}`) yields
overall risk `'unknown'`.  The source filters on the truthiness of
`overallRisk`, and the string `'unknown'` is truthy, so the risks list is
non-empty and the fall-through returns `'low'`. -/
theorem claim2_overall_risk_counterexample :
    (∀ p ∈ allErroredResults, ∃ r, p.2 = some r ∧ r.error.isSome = true ∧
      r.overallRisk = some "unknown") ∧
    calculateOverallRisk (some allErroredResults) = "low" ∧
    calculateOverallRisk (some allErroredResults) ≠ "unknown" := by
  decide

/-- Claim C2 (amended): `calculateOverallRisk` returns `'unknown'` iff the
input is not an object or no entry has a truthy `overallRisk`; otherwise
it returns `'high'` iff some collected risk is `'high'`, `'medium'` iff
some is `'medium'` and none is `'high'`, and `'low'` otherwise — in
particular, a map whose every entry is an errored result with
`overallRisk = 'unknown'` yields `'low'` (errored results count toward
the `'low'` fall-through, they are not treated as a bottom element of the
risk order). -/
theorem claim2_overall_risk (rs : Results) :
    (calculateOverallRisk none = "unknown") ∧
    (calculateOverallRisk (some rs) = "unknown" ↔ risksOf rs = []) ∧
    (calculateOverallRisk (some rs) = "high" ↔ "high" ∈ risksOf rs) ∧
    (calculateOverallRisk (some rs) = "medium" ↔
      ("medium" ∈ risksOf rs ∧ "high" ∉ risksOf rs)) ∧
    (calculateOverallRisk (some rs) = "low" ↔
      (risksOf rs ≠ [] ∧ "high" ∉ risksOf rs ∧ "medium" ∉ risksOf rs)) ∧
    ((∀ p ∈ rs, ∃ r, p.2 = some r ∧ r.overallRisk = some "unknown") →
      rs ≠ [] → calculateOverallRisk (some rs) = "low") := by
  refine ⟨rfl, ?_, ?_, ?_, ?_, all_unknown_imp_low rs⟩ <;>
  · rw [calcRisk_ite]
    by_cases h1 : risksOf rs = [] <;> by_cases h2 : "high" ∈ risksOf rs <;>
      by_cases h3 : "medium" ∈ risksOf rs <;> simp_all

/-- Witness for C2: the amended theorem applied to the all-errored map. -/
theorem claim2_overall_risk_witness :
    calculateOverallRisk (some allErroredResults) = "low" :=
  (claim2_overall_risk allErroredResults).2.2.2.2.2 (by decide) (by decide)

/-- Claim C3 (counterexample): on a phase-1 result map with one high-risk
finding and no blockchain keywords, the depth trigger
(`needsExtendedForensics`) holds but no indicator is extracted; the claim
says the conditional detector set still runs, yet the run leaves the
result map unchanged (no `blockchain`/`defi` entry) and only records the
`'Extended Forensics Analysis'` marker. -/
theorem claim3_adaptive_trigger_counterexample :
    extractBlockchainIndicators depthOnlyResults = [] ∧
    needsExtendedForensics depthOnlyResults = true ∧
    (runAdaptivePhase depthOnlyResults conditionalAgentsExample).results =
      depthOnlyResults ∧
    lookupResult (runAdaptivePhase depthOnlyResults
      conditionalAgentsExample).results "blockchain" = none ∧
    lookupResult (runAdaptivePhase depthOnlyResults
      conditionalAgentsExample).results "defi" = none ∧
    (runAdaptivePhase depthOnlyResults conditionalAgentsExample).extendedPhases =
      ["Extended Forensics Analysis"] := by
  decide

/-- Claim C3 (amended): the conditional (adaptive) detector set runs iff
the indicator extraction over the phase-1 results is non-empty; the depth
trigger (`highRiskFindings > 0 OR mediumRiskFindings >= 5`) is evaluated
independently but only records the `'Extended Forensics Analysis'` marker
and the `extendedForensicsEnabled` flag — it runs no detector. -/
theorem claim3_adaptive_trigger (rs : Results) (cond : List AgentSpec) :
    (extractBlockchainIndicators rs ≠ [] →
      (runAdaptivePhase rs cond).results = rs ++ runAgents cond) ∧
    (extractBlockchainIndicators rs = [] →
      (runAdaptivePhase rs cond).results = rs) ∧
    ("Extended Forensics Analysis" ∈ (runAdaptivePhase rs cond).extendedPhases ↔
      needsExtendedForensics (runAdaptivePhase rs cond).results = true) ∧
    ((runAdaptivePhase rs cond).extendedForensicsEnabled =
      needsExtendedForensics (runAdaptivePhase rs cond).results) ∧
    ((runAdaptivePhase rs cond).blockchainAnalysisEnabled =
      hasBlockchainIndicators (runAdaptivePhase rs cond).results) := by
  by_cases hind : extractBlockchainIndicators rs = [] <;>
    [(by_cases hfor : needsExtendedForensics rs = true);
     (by_cases hfor : needsExtendedForensics (rs ++ runAgents cond) = true)] <;>
    simp [runAdaptivePhase, hasBlockchainIndicators, hind, hfor, List.length_pos]

/-- Witness for C3: with no indicators extracted, the conditional
detectors are not added to the result map. -/
theorem claim3_adaptive_trigger_witness :
    (runAdaptivePhase depthOnlyResults conditionalAgentsExample).results =
      depthOnlyResults :=
  (claim3_adaptive_trigger depthOnlyResults conditionalAgentsExample).2.1
    (by decide)

/-- Claim C4 (counterexample): the claim says `reportedRisk` is used as a
tie-break when the findings list is empty (so an empty list with reported
risk `'high'` would yield `'high'`, and with no reported risk
`'unknown'`); the source returns `'low'` for every empty or non-array
findings value and never reads `reportedRisk`. -/
theorem claim4_derive_risk_counterexample :
    deriveRiskFromFindings (some []) "high" = "low" ∧
    deriveRiskFromFindings (some []) "unknown" = "low" ∧
    ("low" : String) ≠ "high" ∧ ("low" : String) ≠ "unknown" := by
  decide

/-- Claim C4 (amended): `deriveRiskFromFindings` returns `'high'` iff some
finding has risk `'high'`, else `'medium'` iff some finding has risk
`'medium'`, else `'low'` for a non-empty list; an empty or non-array
findings value yields `'low'` unconditionally, and the `reportedRisk`
argument never influences the result (it is dead). -/
theorem claim4_derive_risk :
    (∀ f? r r', deriveRiskFromFindings f? r = deriveRiskFromFindings f? r') ∧
    (∀ fs r, deriveRiskFromFindings (some fs) r = "high" ↔
      ∃ f? ∈ fs, ∃ f, f? = some f ∧ f.risk = some "high") ∧
    (∀ fs r, deriveRiskFromFindings (some fs) r = "medium" ↔
      ((∃ f? ∈ fs, ∃ f, f? = some f ∧ f.risk = some "medium") ∧
        ¬ ∃ f? ∈ fs, ∃ f, f? = some f ∧ f.risk = some "high")) ∧
    (∀ fs r, fs ≠ [] →
      (¬ ∃ f? ∈ fs, ∃ f, f? = some f ∧ f.risk = some "high") →
      (¬ ∃ f? ∈ fs, ∃ f, f? = some f ∧ f.risk = some "medium") →
      deriveRiskFromFindings (some fs) r = "low") ∧
    (∀ r, deriveRiskFromFindings none r = "low") ∧
    (∀ r, deriveRiskFromFindings (some []) r = "low") := by
  refine ⟨fun f? r r' => rfl, ?_, ?_, ?_, fun r => rfl, fun r => rfl⟩ <;>
  · intro fs r
    rw [derive_ite]
    simp only [List.any_eq_true, matchRisk_iff, List.isEmpty_iff]
    by_cases h1 : fs = [] <;>
      by_cases h2 : ∃ f? ∈ fs, ∃ f, f? = some f ∧ f.risk = some "high" <;>
      by_cases h3 : ∃ f? ∈ fs, ∃ f, f? = some f ∧ f.risk = some "medium" <;>
      simp [h1, h2, h3]

/-- Witness for C4: a singleton low-risk findings list derives `'low'`. -/
theorem claim4_derive_risk_witness :
    deriveRiskFromFindings (some [some { risk := some "low" }]) "unknown" =
      "low" :=
  claim4_derive_risk.2.2.2.1 [some { risk := some "low" }] "unknown"
    (by decide) (by decide) (by decide)

/-- Claim C6 (confirmed): when one detector's `analyze()` throws, the
scheduler records `{agent, error, overallRisk:'unknown'}` for it, every
other detector's entry is still produced in order (the map's keys are
exactly the scheduled detectors), and the run's overall risk equals the
verdict computed from the remaining detectors alone (provided at least
one remaining result carries a truthy `overallRisk`, as in Scenario C). -/
theorem claim6_detector_failure_isolated (A B : List AgentSpec)
    (k nme e : String)
    (hrisk : risksOf (runAgents (A ++ B)) ≠ []) :
    runAgents (A ++ (k, nme, Except.error e) :: B) =
      runAgents A ++ (k, some (errorResultOf nme e)) :: runAgents B ∧
    (runAgents (A ++ (k, nme, Except.error e) :: B)).map Prod.fst =
      (A ++ (k, nme, Except.error e) :: B).map Prod.fst ∧
    calculateOverallRisk (some (runAgents (A ++ (k, nme, Except.error e) :: B))) =
      calculateOverallRisk (some (runAgents (A ++ B))) := by
  refine ⟨by simp [runAgents, recordAgent, errorResultOf], runAgents_keys _, ?_⟩
  have h1 : risksOf (runAgents (A ++ (k, nme, Except.error e) :: B)) =
      risksOf (runAgents A) ++ "unknown" :: risksOf (runAgents B) := by
    simp [runAgents, recordAgent, errorResultOf, risksOf]
  have h2 : risksOf (runAgents (A ++ B)) =
      risksOf (runAgents A) ++ risksOf (runAgents B) := by
    simp [runAgents, risksOf]
  rw [calcRisk_ite, calcRisk_ite, h1, h2]
  rw [h2] at hrisk
  by_cases hh : "high" ∈ risksOf (runAgents A) ++ risksOf (runAgents B) <;>
    by_cases hm : "medium" ∈ risksOf (runAgents A) ++ risksOf (runAgents B) <;>
    simp_all <;> rw [if_neg (by tauto)]

/-- Witness for C6: a concrete three-detector run in which the middle
detector throws; the overall risk is that of the remaining two. -/
theorem claim6_detector_failure_isolated_witness :
    calculateOverallRisk
      (some (runAgents (c6Before ++ ("system", "SystemAgent",
        Except.error "boom") :: c6After))) =
      calculateOverallRisk (some (runAgents (c6Before ++ c6After))) :=
  (claim6_detector_failure_isolated c6Before c6After "system" "SystemAgent"
    "boom" (by decide)).2.2

/-- Claim C7 (counterexample): the claim says `summary.totalFindings`
equals the sum of `len(findings)` over ALL detector results; the source
skips results carrying a truthy `error` field, so a result that has both
an error and a one-element findings list contributes 0, not 1. -/
theorem claim7_summary_total_counterexample :
    (generateSummary (some erroredWithFindingsResults)).totalFindings = 0 ∧
    specTotalFindings erroredWithFindingsResults = 1 ∧
    (generateSummary (some erroredWithFindingsResults)).totalFindings ≠
      specTotalFindings erroredWithFindingsResults := by
  decide

/-- Claim C7 (amended): `generateSummary` is total (never throws); a
non-object input yields the zeroed summary carrying
`error = 'Invalid results data'`; otherwise `totalFindings` is the sum of
`len(findings)` over the NON-NULL, NON-ERRORED results (a non-array
findings field counting as zero, and null or errored results contributing
nothing), and the per-tier counters count the non-null findings of each
tier across those same results. -/
theorem claim7_summary_total :
    (generateSummary none =
      { totalFindings := 0, highRiskFindings := 0, mediumRiskFindings := 0,
        lowRiskFindings := 0, agentSummaries := [],
        error := some "Invalid results data" }) ∧
    (∀ rs, (generateSummary (some rs)).totalFindings =
      (rs.map (fun p => (errorFreeFindings p).length)).sum) ∧
    (∀ rs, (generateSummary (some rs)).highRiskFindings =
      (rs.map (fun p => tallyHigh (errorFreeFindings p))).sum) ∧
    (∀ rs, (generateSummary (some rs)).mediumRiskFindings =
      (rs.map (fun p => tallyMedium (errorFreeFindings p))).sum) ∧
    (∀ rs, (generateSummary (some rs)).lowRiskFindings =
      (rs.map (fun p => tallyLow (errorFreeFindings p))).sum) ∧
    (∀ rs, (generateSummary (some rs)).error = none) := by
  refine ⟨rfl, fun rs => ?_, fun rs => ?_, fun rs => ?_, fun rs => ?_,
    fun rs => ?_⟩ <;>
    have h := summary_fold rs emptySummary
  · exact (by simpa [generateSummary, emptySummary] using h.1)
  · exact (by simpa [generateSummary, emptySummary] using h.2.1)
  · exact (by simpa [generateSummary, emptySummary] using h.2.2.1)
  · exact (by simpa [generateSummary, emptySummary] using h.2.2.2.1)
  · exact (by simpa [generateSummary, emptySummary] using h.2.2.2.2)

/-- Claim C8 (confirmed): the seed-phrase classifier accepts a candidate
iff its whitespace tokens number 12 to 24, are purely alphabetic, hit the
domain stopword set at most twice, and contain at most 2 duplicates; and
concretely, `detect` reports the seed-phrase pattern on 12 distinct
non-stopword dictionary words but not on an ordinary 14-word sentence
with more than two stopword hits. -/
theorem claim8_seed_classifier :
    (∀ c, isLikelySeedPhrase c = true ↔ SeedPhraseSpec c) ∧
    ((performSecurityCheck seedPhraseExample).sensitivePatterns.any
      (fun h => h.name == "Potential seed phrase") = true) ∧
    ((performSecurityCheck seedPhraseExample).hasSensitiveData = true) ∧
    ((performSecurityCheck proseExample).sensitivePatterns.any
      (fun h => h.name == "Potential seed phrase") = false) ∧
    ((performSecurityCheck proseExample).hasSensitiveData = false) := by
  refine ⟨seed_iff, by decide, by decide, by decide, by decide⟩

/-- Witness for C8: the classifier equivalence applied to the concrete
12-word example. -/
theorem claim8_seed_classifier_witness :
    SeedPhraseSpec seedPhraseExample :=
  (claim8_seed_classifier.1 seedPhraseExample).mp (by decide)

/-- Claim C5 (counterexample): the round-trip law
`detect(sanitizeText(x)).hasSensitiveData = false` fails for the covered
seed-phrase pattern: the sanitizer's mnemonic pattern only fires when one
of its fixed trigger words occurs, so a 12-word seed phrase avoiding that
word list passes `sanitizeText` unchanged and is then detected. -/
theorem claim5_roundtrip_counterexample :
    sanitizeText seedPhraseExample = seedPhraseExample ∧
    (performSecurityCheck (sanitizeText seedPhraseExample)).hasSensitiveData =
      true ∧
    (performSecurityCheck (sanitizeText seedPhraseExample)).sensitivePatterns.map
      (fun h => h.name) = ["Potential seed phrase"] := by
  decide

/-- Claim C5 (amended): the round-trip is NOT a law over all inputs
containing a covered pattern instance.  It holds at representative
single-instance inputs of the other five covered pattern classes — a
64-hex private key, a `0x`+40-hex Ethereum address, a Base58
Bitcoin-shaped string, a 32+ character API-key-shaped token, and a
`key=value` password pair — but it fails for seed phrases whose words
avoid the sanitizer's mnemonic trigger-word list (`word`, `agree`,
`letter`, `again`, `animal`, ... — common English words, not
crypto-jargon), and it even fails for an input containing a covered
Ethereum-address instance when such a phrase sits alongside it: the
address is redacted but the phrase survives and is detected. -/
theorem claim5_roundtrip_by_class :
    (performSecurityCheck (sanitizeText privateKeyExample)).hasSensitiveData =
      false ∧
    (performSecurityCheck (sanitizeText ethAddressExample)).hasSensitiveData =
      false ∧
    (performSecurityCheck (sanitizeText btcAddressExample)).hasSensitiveData =
      false ∧
    (performSecurityCheck (sanitizeText apiKeyExample)).hasSensitiveData =
      false ∧
    (performSecurityCheck (sanitizeText passPairExample)).hasSensitiveData =
      false ∧
    (performSecurityCheck (sanitizeText seedPhraseExample)).hasSensitiveData =
      true ∧
    (performSecurityCheck (sanitizeText
      (ethAddressExample ++ " " ++ seedPhraseExample))).hasSensitiveData =
      true := by
  refine ⟨by decide, by decide, by decide, by decide, by decide, by decide,
    by decide⟩

/-- Claim C9 (confirmed): the scheduler partitions the detector list into
consecutive chunks of size at most `k` (every chunk but possibly the last
has exactly `k` members, and the normalised `maxParallelAgents` is always
at least 1); in the parallel trace no detector of a later chunk starts
before every detector of an earlier chunk has settled, for any completion
order of each chunk; and in the sequential trace every start is
immediately followed by its own settlement. -/
theorem claim9_scheduler_chunks {β : Type} (k : Nat) (hk : 1 ≤ k)
    (agents : List β) (hnd : agents.Nodup) (ord : List β → List β)
    (hord : ∀ c, (ord c).Perm c) :
    (∀ o, 1 ≤ normMaxParallelAgents o) ∧
    ((chunksOf k agents).flatten = agents) ∧
    (∀ c ∈ chunksOf k agents, c.length ≤ k ∧ c ≠ []) ∧
    (∀ i, i + 1 < (chunksOf k agents).length →
      ∀ h : i < (chunksOf k agents).length,
        ((chunksOf k agents)[i]).length = k) ∧
    (∀ i j : Nat, ∀ hj : j < (chunksOf k agents).length, i < j →
      ∀ a b : β, ∀ hi : i < (chunksOf k agents).length,
      a ∈ (chunksOf k agents)[i] → b ∈ (chunksOf k agents)[j] →
      ∀ n m : Nat,
        (parallelTrace ord (chunksOf k agents))[n]? =
          some (SchedEvent.settle a) →
        (parallelTrace ord (chunksOf k agents))[m]? =
          some (SchedEvent.start b) →
        n < m) ∧
    (∀ n : Nat, ∀ a : β, (seqTrace agents)[n]? = some (SchedEvent.start a) →
      (seqTrace agents)[n+1]? = some (SchedEvent.settle a)) := by
  refine ⟨?_, chunksOf_flatten k hk agents, chunksOf_mem k hk agents,
    chunksOf_full k hk agents, ?_, seqTrace_step agents⟩
  · intro o
    match o with
    | none => decide
    | some n =>
      by_cases h : n = 0 <;> simp [normMaxParallelAgents, h] <;> omega
  · intro i j hj hij a b hi ha hb n m hn hm
    exact parallel_join_order k hk agents hnd ord hord hj hij ha hb hn hm

/-- Witness for C9: the six core detector keys run sequentially; the
first start is immediately followed by its settlement. -/
theorem claim9_scheduler_chunks_witness :
    (seqTrace schedulerAgentsExample)[1]? =
      some (SchedEvent.settle "resource") := by
  have h := claim9_scheduler_chunks 3 (by decide) schedulerAgentsExample
    (by decide) id (fun c => List.Perm.refl c)
  exact h.2.2.2.2.2 0 "resource" (by decide)

/-- Counterexample to C10 as stated: for the non-absolute path
`relative/path` with an empty cache supplied, `getSignatureAssessment`
returns the default assessment and leaves the cache unchanged, so after
the call the cache does NOT hold the returned assessment under the
resolved path — the guard's early return skips the `cache.set`. -/
theorem claim10_cache_counterexample :
    getSignatureAssessment sigFsExample sigShellExample "relative/path"
        (some []) =
      (defaultAssessment "relative/path" false false, some [], []) ∧
    sigCacheGet [] (resolveSigPath sigFsExample "relative/path") = none := by
  decide

/-- Claim C10 (corrected): `getSignatureAssessment` is total and
cache-consistent on the paths it actually caches.  (A) When the guard
fails (non-absolute or non-existent resolved path) it returns the default
assessment, leaves the cache unchanged and issues no shell command — it
does NOT populate the cache, contrary to the claim's "after any call".
(B) On a cache hit it returns the cached assessment, cache and command
list untouched.  (C) On a guard-passing cache miss the returned cache is
the old cache with the returned assessment stored under the resolved
path, and exactly two shell commands (spctl, codesign) are issued.
(D) Repeating any call with the returned cache yields the identical
assessment and cache with no further commands. -/
theorem claim10_cache_consistency (fs : String → Bool) (sh : String → String)
    (p : String) (c : SigCache) :
    (sigGuardOk fs p = false →
      getSignatureAssessment fs sh p (some c) =
        (defaultAssessment p (sigGuardOk fs p)
          (isAbsolutePathStr (resolveSigPath fs p)), some c, [])) ∧
    (∀ a, sigGuardOk fs p = true →
      sigCacheGet c (resolveSigPath fs p) = some a →
      getSignatureAssessment fs sh p (some c) = (a, some c, [])) ∧
    (sigGuardOk fs p = true →
      sigCacheGet c (resolveSigPath fs p) = none →
      ((getSignatureAssessment fs sh p (some c)).2.1 =
        some (sigCacheSet c (resolveSigPath fs p)
          (getSignatureAssessment fs sh p (some c)).1) ∧
       sigCacheGet (sigCacheSet c (resolveSigPath fs p)
          (getSignatureAssessment fs sh p (some c)).1) (resolveSigPath fs p) =
         some (getSignatureAssessment fs sh p (some c)).1 ∧
       (getSignatureAssessment fs sh p (some c)).2.2.length = 2)) ∧
    (∀ a c' cmds, getSignatureAssessment fs sh p (some c) = (a, c', cmds) →
      getSignatureAssessment fs sh p c' = (a, c', [])) := by
  cases hA : isAbsolutePathStr (resolveSigPath fs p) with
  | false =>
    refine ⟨?_, ?_, ?_, ?_⟩
    · intro hg
      simp only [sigGuardOk, hA, Bool.false_and]
      simp [getSignatureAssessment, hA, defaultAssessment]
    · intro a hg _
      rw [sigGuardOk, hA] at hg
      simp at hg
    · intro hg _
      rw [sigGuardOk, hA] at hg
      simp at hg
    · intro a c' cmds h
      simp only [getSignatureAssessment, hA] at h
      simp only [Bool.not_false, Bool.false_and, Bool.not_false, Bool.true_or,
        if_true, Prod.mk.injEq] at h
      obtain ⟨h1, h2, h3⟩ := h
      simp [getSignatureAssessment, hA, ← h1, ← h2, ← h3]
  | true =>
    cases hf : fs (resolveSigPath fs p) with
    | false =>
      refine ⟨?_, ?_, ?_, ?_⟩
      · intro hg
        simp only [sigGuardOk, hA, hf, Bool.true_and]
        simp [getSignatureAssessment, hA, hf, defaultAssessment]
      · intro a hg _
        rw [sigGuardOk, hA, hf] at hg
        simp at hg
      · intro hg _
        rw [sigGuardOk, hA, hf] at hg
        simp at hg
      · intro a c' cmds h
        simp only [getSignatureAssessment, hA, hf, Bool.not_true, Bool.true_and,
          Bool.not_false, Bool.false_or, if_true, Prod.mk.injEq] at h
        obtain ⟨h1, h2, h3⟩ := h
        simp [getSignatureAssessment, hA, hf, ← h1, ← h2, ← h3]
    | true =>
      cases hget : sigCacheGet c (resolveSigPath fs p) with
      | some cached =>
        have hred : getSignatureAssessment fs sh p (some c) =
            (cached, some c, []) := by
          simp [getSignatureAssessment, hA, hf, hget]
        refine ⟨?_, ?_, ?_, ?_⟩
        · intro hg
          rw [sigGuardOk, hA, hf] at hg
          simp at hg
        · intro a _ hget2
          injection hget2 with he
          subst he
          exact hred
        · intro _ hget2
          exact absurd hget2 (by simp)
        · intro a c' cmds h
          rw [hred] at h
          have ha : a = cached := by
            have hh := congrArg Prod.fst h
            simpa using hh.symm
          have hc' : c' = some c := by
            have hh := congrArg (fun t :
              SigAssessment × Option SigCache × List String => t.2.1) h
            simpa using hh.symm
          subst ha
          subst hc'
          exact hred
      | none =>
        obtain ⟨a0, cmds0, hred, hlen⟩ : ∃ a0 cmds0,
            getSignatureAssessment fs sh p (some c) =
              (a0, some (sigCacheSet c (resolveSigPath fs p) a0), cmds0) ∧
            cmds0.length = 2 := by
          simp only [getSignatureAssessment, hA, hf, hget, Option.some_bind,
            Bool.not_true, Bool.and_self, Bool.or_self, Bool.false_or,
            Bool.true_and, if_false, Bool.false_eq_true]
          exact ⟨_, _, rfl, rfl⟩
        refine ⟨?_, ?_, ?_, ?_⟩
        · intro hg
          rw [sigGuardOk, hA, hf] at hg
          simp at hg
        · intro a _ hget2
          exact absurd hget2 (by simp)
        · intro _ _
          rw [hred]
          exact ⟨rfl, sigCacheGet_set c (resolveSigPath fs p) a0, hlen⟩
        · intro a c' cmds h
          rw [hred] at h
          have ha : a = a0 := by
            have hh := congrArg Prod.fst h
            simpa using hh.symm
          have hc' : c' = some (sigCacheSet c (resolveSigPath fs p) a0) := by
            have hh := congrArg (fun t :
              SigAssessment × Option SigCache × List String => t.2.1) h
            simpa using hh.symm
          subst ha
          subst hc'
          simp [getSignatureAssessment, hA, hf, sigCacheGet_set]

/-- Witness for C10: a guard-passing cache-miss call on `/usr/bin/tool`
populates the cache under the resolved path and issues exactly two shell
commands. -/
theorem claim10_cache_consistency_witness :
    sigGuardOk sigFsExample "/usr/bin/tool" = true ∧
    ((getSignatureAssessment sigFsExample sigShellExample "/usr/bin/tool"
        (some [])).2.1 =
      some (sigCacheSet [] (resolveSigPath sigFsExample "/usr/bin/tool")
        (getSignatureAssessment sigFsExample sigShellExample "/usr/bin/tool"
          (some [])).1) ∧
     sigCacheGet (sigCacheSet [] (resolveSigPath sigFsExample "/usr/bin/tool")
        (getSignatureAssessment sigFsExample sigShellExample "/usr/bin/tool"
          (some [])).1) (resolveSigPath sigFsExample "/usr/bin/tool") =
       some (getSignatureAssessment sigFsExample sigShellExample
         "/usr/bin/tool" (some [])).1 ∧
     (getSignatureAssessment sigFsExample sigShellExample "/usr/bin/tool"
        (some [])).2.2.length = 2) :=
  ⟨by decide,
   (claim10_cache_consistency sigFsExample sigShellExample "/usr/bin/tool"
     []).2.2.1 (by decide) (by decide)⟩
